import Mathlib

/-!
Verification of the subscription-aggregator service: a shallow embedding of
its validation functions (handler layer and repository layer) and of the
repository operations over the `subscriptions` table, together with theorems
about the specified properties.

Strings are modelled as lists of characters; the source only ever treats
ASCII bytes specially (digits, hyphen, plus, hex digits), and on such inputs
byte indexing and character indexing agree.
-/

namespace SubAgg

/-- Value of an ASCII digit character; `c.toNat - 48`, total on all chars. -/
def digitVal (c : Char) : Nat := c.toNat - 48

/-- Character class of ASCII decimal digits, as tested byte-wise by the Go
`strconv` parsing loop (`'0' <= c && c <= '9'`). -/
def isDigitChar (c : Char) : Bool := decide (48 ≤ c.toNat ∧ c.toNat ≤ 57)

/-- Digit-accumulation loop of `strconv.Atoi` (base 10): consume every
character, failing on the first non-digit. -/
def atoiLoop : List Char → Nat → Option Nat
  | [], acc => some acc
  | c :: cs, acc => if isDigitChar c then atoiLoop cs (acc * 10 + digitVal c) else none

/-- Unsigned decimal parse of `strconv.Atoi`: the empty string is a syntax
error, otherwise run the digit loop. -/
def atoiDigits (cs : List Char) : Option Nat :=
  match cs with
  | [] => none
  | _ :: _ => atoiLoop cs 0

/-- Model of Go `strconv.Atoi` on a character list: an optional leading
`+` or `-` sign followed by a nonempty run of decimal digits; `none` models
the error return. Overflow is irrelevant at the lengths used here. -/
def atoiChars : List Char → Option Int
  | [] => none
  | c :: cs =>
    if c = '+' then
      match atoiDigits cs with
      | some n => some (n : Int)
      | none => none
    else if c = '-' then
      match atoiDigits cs with
      | some n => some (-(n : Int))
      | none => none
    else
      match atoiDigits (c :: cs) with
      | some n => some (n : Int)
      | none => none

/-- Lexicographic (byte-wise) order on character lists, the order Postgres
applies when comparing two `TEXT` values of the shape used here (digits and
hyphens in identical positions, where every collation agrees with byte
order). -/
def charListLe : List Char → List Char → Bool
  | [], _ => true
  | _ :: _, [] => false
  | a :: as, b :: bs =>
    if a.toNat < b.toNat then true
    else if a.toNat = b.toNat then charListLe as bs
    else false

/-- SQL `<=` on two `TEXT` period values. -/
def strLe (a b : String) : Bool := charListLe a.toList b.toList

/-- Model of Go `strings.Split(s, "-")`: cut the character list at every
hyphen; the empty list splits to one empty part. -/
def splitH : List Char → List (List Char)
  | [] => [[]]
  | c :: rest =>
    if c = '-' then [] :: splitH rest
    else
      match splitH rest with
      | [] => [[c]]
      | p :: ps => (c :: p) :: ps

/-- Hexadecimal digit class of the UUID byte decoder (`xtob`). -/
def isHexDigit (c : Char) : Bool :=
  decide ((48 ≤ c.toNat ∧ c.toNat ≤ 57) ∨ (97 ≤ c.toNat ∧ c.toNat ≤ 102) ∨
    (65 ≤ c.toNat ∧ c.toNat ≤ 70))

/-- ASCII lower-casing used by the case-insensitive `urn:uuid:` prefix test. -/
def lowerAscii (c : Char) : Char :=
  if 65 ≤ c.toNat ∧ c.toNat ≤ 90 then Char.ofNat (c.toNat + 32) else c

/-- Canonical 36-character UUID layout: hyphens at offsets 8, 13, 18 and 23
and hexadecimal digits everywhere else. -/
def canonical36 (cs : List Char) : Bool :=
  decide (cs.length = 36) &&
  (List.range 36).all (fun i =>
    if i = 8 ∨ i = 13 ∨ i = 18 ∨ i = 23 then decide (cs.getD i ' ' = '-')
    else isHexDigit (cs.getD i ' '))

/-- Models `uuid.Parse` from github.com/google/uuid, the external dependency
every repository operation and the handler validator call: it accepts the
canonical 36-character form, the 45-character `urn:uuid:`-prefixed form
(prefix compared case-insensitively), the 38-character wrapped form (the
library strips only the first character and never examines the last), and
the 32-character plain-hex form. -/
def uuidParseOk (s : String) : Bool :=
  let cs := s.toList
  if cs.length = 36 then canonical36 cs
  else if cs.length = 45 then
    decide ((cs.take 9).map lowerAscii = "urn:uuid:".toList) && canonical36 (cs.drop 9)
  else if cs.length = 38 then canonical36 ((cs.drop 1).take 36)
  else if cs.length = 32 then cs.all isHexDigit
  else false

/-- Model of the handler-layer period pattern `monthYearRegex`, the compiled
regular expression `(0[1-9]|1[0-2])-` followed by four digits, anchored at
both ends: exactly seven characters, a month component textually restricted
to `01`–`09` or `10`–`12`, a literal hyphen, four decimal digits. -/
def monthYearMatch (s : String) : Bool :=
  match s.toList with
  | [m1, m2, sep, y1, y2, y3, y4] =>
    ((m1 == '0' && decide (49 ≤ m2.toNat ∧ m2.toNat ≤ 57)) ||
     (m1 == '1' && decide (48 ≤ m2.toNat ∧ m2.toNat ≤ 50))) &&
    sep == '-' &&
    (isDigitChar y1 && isDigitChar y2 && isDigitChar y3 && isDigitChar y4)
  | _ => false

/-- Handler-layer input validator from `validation.go`; returns the error
message of the first failing rule, `none` on success. -/
def ValidateSubscriptionInput (serviceName : String) (price : Int)
    (userID startDate : String) : Option String :=
  if serviceName == "" then some "service_name is required"
  else if price ≤ 0 then some "price must be a positive integer"
  else if uuidParseOk userID = false then some "user_id must be a valid UUID"
  else if monthYearMatch startDate = false then
    some "start_date must be in MM-YYYY format (e.g., 07-2025)"
  else none

/-- Handler-layer period format validator from `validation.go`. -/
def ValidatePeriodDate (dateStr : String) : Option String :=
  if monthYearMatch dateStr = false then some "date must be in MM-YYYY format"
  else none

/-- Model of the handler-layer comparator `isEndDateAfterOrEqual` from
`validation.go`: split both arguments on hyphens, read segment 1 as the year
and segment 0 as the month with `strconv.Atoi` (whose error the source
discards), and compare year first, then month. `none` models the two ways
the source misbehaves off the validated path: an index-out-of-range access
when a split yields fewer than two segments, or a discarded `Atoi` parse
error; on inputs matching the period pattern neither occurs. -/
def isEndDateAfterOrEqual (startS endS : String) : Option Bool :=
  let sp := splitH startS.toList
  let ep := splitH endS.toList
  match sp.get? 1, sp.get? 0, ep.get? 1, ep.get? 0 with
  | some sy, some sm, some ey, some em =>
    match atoiChars sy, atoiChars sm, atoiChars ey, atoiChars em with
    | some startYear, some startMonth, some endYear, some endMonth =>
      some (if startYear < endYear then true
            else if endYear = startYear ∧ startMonth ≤ endMonth then true
            else false)
    | _, _, _, _ => none
  | _, _, _, _ => none

/-- Repository-layer period validator `isValidMonthYear` from the Postgres
repository: length 7, hyphen at byte 2, both segments parsed with
`strconv.Atoi`, month in `[1, 12]` and year in `[1900, 2100]`. -/
def isValidMonthYear (s : String) : Bool :=
  let cs := s.toList
  if cs.length = 7 ∧ cs.getD 2 ' ' = '-' then
    match atoiChars (cs.take 2), atoiChars (cs.drop 3) with
    | some month, some year =>
      decide (1 ≤ month) && decide (month ≤ 12) &&
      decide (1900 ≤ year) && decide (year ≤ 2100)
    | _, _ => false
  else false

/-- Year read out of a period string, as the claims speak of it: the value
of the characters after the hyphen (defaulting to 0 where no parse exists). -/
def yearOf (s : String) : Int := (atoiChars (s.toList.drop 3)).getD 0

/-- Month read out of a period string: the value of its first two
characters (defaulting to 0 where no parse exists). -/
def monthOf (s : String) : Int := (atoiChars (s.toList.take 2)).getD 0

/-- Numeric value of four digit characters read as a year. -/
def yearVal4 (a b c d : Char) : Nat :=
  1000 * digitVal a + 100 * digitVal b + 10 * digitVal c + digitVal d

/-- Shape demanded by the specification of the repository validator: exactly
`MM-YYYY` — a two-digit month, a literal hyphen, a four-digit year — with
the month in `[1, 12]` and the year in `[1900, 2100]`. -/
def strictMonthYearShape (s : String) : Bool :=
  match s.toList with
  | [m1, m2, sep, y1, y2, y3, y4] =>
    sep == '-' &&
    (isDigitChar m1 && isDigitChar m2 &&
     decide (1 ≤ 10 * digitVal m1 + digitVal m2) &&
     decide (10 * digitVal m1 + digitVal m2 ≤ 12)) &&
    (isDigitChar y1 && isDigitChar y2 && isDigitChar y3 && isDigitChar y4 &&
     decide (1900 ≤ yearVal4 y1 y2 y3 y4) && decide (yearVal4 y1 y2 y3 y4 ≤ 2100))
  | _ => false

/-- Extra shape the repository validator also accepts beyond `MM-YYYY`: a
plus sign, one nonzero digit, a hyphen and a four-digit year in range,
admitted because `strconv.Atoi` takes an optional leading sign. -/
def plusMonthShape (s : String) : Bool :=
  match s.toList with
  | [m1, m2, sep, y1, y2, y3, y4] =>
    sep == '-' &&
    (m1 == '+' && isDigitChar m2 && decide (1 ≤ digitVal m2)) &&
    (isDigitChar y1 && isDigitChar y2 && isDigitChar y3 && isDigitChar y4 &&
     decide (1900 ≤ yearVal4 y1 y2 y3 y4) && decide (yearVal4 y1 y2 y3 y4 ≤ 2100))
  | _ => false

/-- Persisted row of the `subscriptions` table, the model entity. -/
structure Subscription where
  id : String
  service_name : String
  price : Int
  user_id : String
  start_date : String
  end_date : Option String
deriving DecidableEq

/-- SQL `WHERE` clause of the `TotalCost` query before the optional service
filter: the user matches, `start_date <= $3` and
`(end_date IS NULL OR end_date >= $2)`, all `TEXT` comparisons. -/
def totalCostBaseMatch (userID pfrom pto : String) (sub : Subscription) : Bool :=
  sub.user_id == userID && strLe sub.start_date pto &&
  (match sub.end_date with
   | none => true
   | some e => strLe pfrom e)

/-- Model of `PostgresSubscriptionRepo.TotalCost`: validate the user id and
both periods, apply the base `WHERE` clause, append the service-name filter
only when `serviceName` is non-empty, and return `COALESCE(SUM(price), 0)`
over the matching rows. -/
def TotalCost (userID serviceName pfrom pto : String)
    (db : List Subscription) : Except String Int :=
  if uuidParseOk userID = false then Except.error "invalid user_id UUID"
  else if isValidMonthYear pfrom = false ∨ isValidMonthYear pto = false then
    Except.error "dates must be in MM-YYYY format"
  else
    let base := db.filter (totalCostBaseMatch userID pfrom pto)
    let rows :=
      if serviceName == "" then base
      else base.filter (fun sub => sub.service_name == serviceName)
    Except.ok (rows.foldl (fun acc sub => acc + sub.price) 0)

/-- Insertion step of `ORDER BY start_date DESC` over the `TEXT` column: a
row is placed before the first row whose `start_date` does not exceed its
own (byte-wise text order, as Postgres compares `TEXT`). -/
def insertDesc (sub : Subscription) : List Subscription → List Subscription
  | [] => [sub]
  | y :: ys =>
    if strLe y.start_date sub.start_date then sub :: y :: ys
    else y :: insertDesc sub ys

/-- Result order of `ORDER BY start_date DESC` on a `TEXT` column. -/
def sortByStartDesc (l : List Subscription) : List Subscription :=
  l.foldr insertDesc []

/-- Model of `PostgresSubscriptionRepo.ListByUserID`: validate the user id,
select that user's rows, order them by `start_date` descending as `TEXT`. -/
def ListByUserID (userID : String) (db : List Subscription) :
    Except String (List Subscription) :=
  if uuidParseOk userID = false then Except.error "invalid user_id UUID"
  else Except.ok (sortByStartDesc (db.filter (fun sub => sub.user_id == userID)))

/-- Effect of the `UPDATE ... SET` clause on one row: a row matching the
target id has every listed column replaced and keeps its `id` (which the
`SET` clause does not touch); any other row is untouched. -/
def applyUpdate (sub : Subscription) (id : String) (row : Subscription) : Subscription :=
  if row.id == id then
    { row with
      service_name := sub.service_name
      price := sub.price
      user_id := sub.user_id
      start_date := sub.start_date
      end_date := sub.end_date }
  else row

/-- Model of `PostgresSubscriptionRepo.Update`: validate the id, the new
user id and the new start date; run the `UPDATE` statement; report
"subscription not found" when it affected zero rows. The pair carries the
table state after the call and the error, if any. -/
def Update (id : String) (sub : Subscription) (db : List Subscription) :
    List Subscription × Option String :=
  if uuidParseOk id = false then (db, some "invalid subscription ID")
  else if uuidParseOk sub.user_id = false then (db, some "invalid user_id UUID")
  else if isValidMonthYear sub.start_date = false then
    (db, some "start_date must be in MM-YYYY format")
  else if db.countP (fun row => row.id == id) = 0 then
    (db, some "subscription not found")
  else (db.map (applyUpdate sub id), none)

/-- Model of `PostgresSubscriptionRepo.Delete`: validate the id, run the
`DELETE` statement, report "subscription not found" when it affected zero
rows. The pair carries the table state after the call and the error. -/
def Delete (id : String) (db : List Subscription) :
    List Subscription × Option String :=
  if uuidParseOk id = false then (db, some "invalid subscription ID")
  else if db.countP (fun row => row.id == id) = 0 then
    (db, some "subscription not found")
  else (db.filter (fun row => !(row.id == id)), none)

/-! Auxiliary lemmas about the character-level parsers. -/

lemma isDigitChar_iff {c : Char} : isDigitChar c = true ↔ 48 ≤ c.toNat ∧ c.toNat ≤ 57 := by
  simp [isDigitChar]

lemma digitVal_le_nine {c : Char} (h : isDigitChar c = true) : digitVal c ≤ 9 := by
  rcases isDigitChar_iff.mp h with ⟨h1, h2⟩
  simp only [digitVal]
  omega

lemma isDigitChar_plus : isDigitChar '+' = false := by decide

lemma isDigitChar_minus : isDigitChar '-' = false := by decide

lemma digit_ne_hyphen {c : Char} (h : isDigitChar c = true) : c ≠ '-' := by
  intro hc
  subst hc
  simp [isDigitChar_minus] at h

lemma digit_ne_plus {c : Char} (h : isDigitChar c = true) : c ≠ '+' := by
  intro hc
  subst hc
  simp [isDigitChar_plus] at h

lemma atoiLoop_lt {cs : List Char} : ∀ {acc v : Nat},
    atoiLoop cs acc = some v → v < (acc + 1) * 10 ^ cs.length := by
  induction cs with
  | nil =>
    intro acc v h
    simp [atoiLoop] at h
    subst h
    simp
  | cons c cs ih =>
    intro acc v h
    simp only [atoiLoop] at h
    by_cases hc : isDigitChar c = true
    · rw [if_pos hc] at h
      have hb := ih h
      have hd : digitVal c ≤ 9 := digitVal_le_nine hc
      have hstep : (acc * 10 + digitVal c + 1) * 10 ^ cs.length ≤ (acc + 1) * 10 ^ (c :: cs).length := by
        rw [List.length_cons, pow_succ]
        have : acc * 10 + digitVal c + 1 ≤ (acc + 1) * 10 := by omega
        calc (acc * 10 + digitVal c + 1) * 10 ^ cs.length
            ≤ ((acc + 1) * 10) * 10 ^ cs.length := Nat.mul_le_mul_right _ this
          _ = (acc + 1) * (10 ^ cs.length * 10) := by ring
      exact lt_of_lt_of_le hb hstep
    · rw [if_neg hc] at h
      exact absurd h (by simp)

lemma atoiDigits_two {a b : Char} (ha : isDigitChar a = true) (hb : isDigitChar b = true) :
    atoiDigits [a, b] = some (10 * digitVal a + digitVal b) := by
  simp only [atoiDigits, atoiLoop, ha, hb, if_pos]
  norm_num
  ring

lemma atoiDigits_four {a b c d : Char} (ha : isDigitChar a = true) (hb : isDigitChar b = true)
    (hc : isDigitChar c = true) (hd : isDigitChar d = true) :
    atoiDigits [a, b, c, d] = some (yearVal4 a b c d) := by
  simp only [atoiDigits, atoiLoop, ha, hb, hc, hd, if_pos, yearVal4]
  norm_num
  ring

lemma atoiChars_digits_two {a b : Char} (ha : isDigitChar a = true) (hb : isDigitChar b = true) :
    atoiChars [a, b] = some ((10 * digitVal a + digitVal b : Nat) : Int) := by
  simp only [atoiChars, if_neg (digit_ne_plus ha), if_neg (digit_ne_hyphen ha),
    atoiDigits_two ha hb]

lemma atoiChars_digits_four {a b c d : Char} (ha : isDigitChar a = true)
    (hb : isDigitChar b = true) (hc : isDigitChar c = true) (hd : isDigitChar d = true) :
    atoiChars [a, b, c, d] = some ((yearVal4 a b c d : Nat) : Int) := by
  simp only [atoiChars, if_neg (digit_ne_plus ha), if_neg (digit_ne_hyphen ha),
    atoiDigits_four ha hb hc hd]

lemma and4 (a b c d : Bool) : (((a && b) && c) && d) = ((a && b) && (c && d)) := by
  cases a <;> cases b <;> cases c <;> cases d <;> rfl

lemma andOrRight (x y z : Bool) : ((x || y) && z) = ((x && z) || (y && z)) := by
  cases x <;> cases y <;> cases z <;> rfl

/-- Evaluation of the digit parser on one digit. -/
lemma atoiDigits_one {b : Char} (hb : isDigitChar b = true) :
    atoiDigits [b] = some (digitVal b) := by
  simp [atoiDigits, atoiLoop, hb]

/-- The month segment accepted by `strconv.Atoi` with value in `[1, 12]` is
either a two-digit month or a plus sign followed by a nonzero digit. -/
lemma monthCond (a b : Char) :
    ((atoiChars [a, b]).elim false (fun m => decide (1 ≤ m) && decide (m ≤ 12))) =
    ((isDigitChar a && isDigitChar b &&
      decide (1 ≤ 10 * digitVal a + digitVal b) &&
      decide (10 * digitVal a + digitVal b ≤ 12)) ||
     (a == '+' && isDigitChar b && decide (1 ≤ digitVal b))) := by
  rw [Bool.eq_iff_iff]
  by_cases hp : a = '+'
  · subst hp
    cases hb : isDigitChar b
    · have h1 : atoiDigits [b] = none := by simp [atoiDigits, atoiLoop, hb]
      simp [atoiChars, h1, isDigitChar_plus, hb, Option.elim]
    · have h1 := atoiDigits_one hb
      have h9 := digitVal_le_nine hb
      simp [atoiChars, h1, isDigitChar_plus, hb, Option.elim]
      omega
  · by_cases hm : a = '-'
    · subst hm
      cases hb : isDigitChar b
      · have h1 : atoiDigits [b] = none := by simp [atoiDigits, atoiLoop, hb]
        simp [atoiChars, h1, isDigitChar_minus, hb, Option.elim]
      · have h1 := atoiDigits_one hb
        simp [atoiChars, h1, isDigitChar_minus, hb, Option.elim]
        omega
    · cases ha : isDigitChar a
      · have h1 : atoiDigits [a, b] = none := by simp [atoiDigits, atoiLoop, ha]
        simp [atoiChars, hp, hm, h1, ha, Option.elim]
      · cases hb : isDigitChar b
        · have h1 : atoiDigits [a, b] = none := by
            simp [atoiDigits, atoiLoop, ha, hb]
          simp [atoiChars, hp, hm, h1, hb, Option.elim]
        · have h1 := atoiChars_digits_two ha hb
          simp [h1, hp, hm, ha, hb, Option.elim]
          omega

/-- The year segment accepted by `strconv.Atoi` with value in `[1900, 2100]`
is necessarily four plain digits: a signed segment has at most three digits
and cannot reach 1900. -/
lemma yearCond (d e f g : Char) :
    ((atoiChars [d, e, f, g]).elim false
      (fun y => decide (1900 ≤ y) && decide (y ≤ 2100))) =
    (isDigitChar d && isDigitChar e && isDigitChar f && isDigitChar g &&
     decide (1900 ≤ yearVal4 d e f g) && decide (yearVal4 d e f g ≤ 2100)) := by
  rw [Bool.eq_iff_iff]
  by_cases hp : d = '+'
  · subst hp
    rcases h3 : atoiDigits [e, f, g] with _ | v
    · simp [atoiChars, h3, isDigitChar_plus, Option.elim]
    · have hv : v < 1000 := by
        simp only [atoiDigits] at h3
        have := atoiLoop_lt h3
        norm_num at this
        exact this
      simp [atoiChars, h3, isDigitChar_plus, Option.elim]
      omega
  · by_cases hm : d = '-'
    · subst hm
      rcases h3 : atoiDigits [e, f, g] with _ | v
      · simp [atoiChars, h3, isDigitChar_minus, Option.elim]
      · simp [atoiChars, h3, isDigitChar_minus, Option.elim]
        omega
    · cases hd : isDigitChar d
      · have h1 : atoiDigits [d, e, f, g] = none := by simp [atoiDigits, atoiLoop, hd]
        simp [atoiChars, hp, hm, h1, hd, Option.elim]
      · cases he : isDigitChar e
        · have h1 : atoiDigits [d, e, f, g] = none := by
            simp [atoiDigits, atoiLoop, hd, he]
          simp [atoiChars, hp, hm, h1, he, Option.elim]
        · cases hf : isDigitChar f
          · have h1 : atoiDigits [d, e, f, g] = none := by
              simp [atoiDigits, atoiLoop, hd, he, hf]
            simp [atoiChars, hp, hm, h1, hf, Option.elim]
          · cases hg : isDigitChar g
            · have h1 : atoiDigits [d, e, f, g] = none := by
                simp [atoiDigits, atoiLoop, hd, he, hf, hg]
              simp [atoiChars, hp, hm, h1, hg, Option.elim]
            · have h1 := atoiChars_digits_four hd he hf hg
              simp [h1, hp, hm, hd, he, hf, hg, Option.elim]

/-- Reduction of the repository validator on a seven-character string whose
third character is the hyphen. -/
lemma isValidMonthYear_on7 {s : String} {a b d e f g : Char}
    (hl : s.toList = [a, b, '-', d, e, f, g]) :
    isValidMonthYear s =
      (match atoiChars [a, b], atoiChars [d, e, f, g] with
       | some month, some year =>
         decide (1 ≤ month) && decide (month ≤ 12) &&
         decide (1900 ≤ year) && decide (year ≤ 2100)
       | _, _ => false) := by
  simp only [isValidMonthYear, hl]
  rw [if_pos ⟨rfl, rfl⟩]
  exact rfl

/-- The repository validator rejects any string that is not seven
characters with a hyphen third. -/
lemma isValidMonthYear_not7 {s : String}
    (hcond : ¬((s.toList).length = 7 ∧ (s.toList).getD 2 ' ' = '-')) :
    isValidMonthYear s = false := by
  simp only [isValidMonthYear]
  rw [if_neg hcond]

/-- Full extensional characterization of the repository period validator:
it accepts exactly the strict `MM-YYYY` shapes plus the `+M-YYYY` shapes. -/
lemma isValidMonthYear_eq_shapes (s : String) :
    isValidMonthYear s = (strictMonthYearShape s || plusMonthShape s) := by
  rcases hl : s.toList with _ | ⟨a, _ | ⟨b, _ | ⟨c, _ | ⟨d, _ | ⟨e, _ | ⟨f, _ | ⟨g, rest⟩⟩⟩⟩⟩⟩⟩
  · rw [isValidMonthYear_not7 (by
      rw [hl]
      rintro ⟨h1, -⟩
      simp only [List.length_cons, List.length_nil] at h1
      omega)]
    simp only [strictMonthYearShape, plusMonthShape, hl]
    rfl
  · rw [isValidMonthYear_not7 (by
      rw [hl]
      rintro ⟨h1, -⟩
      simp only [List.length_cons, List.length_nil] at h1
      omega)]
    simp only [strictMonthYearShape, plusMonthShape, hl]
    rfl
  · rw [isValidMonthYear_not7 (by
      rw [hl]
      rintro ⟨h1, -⟩
      simp only [List.length_cons, List.length_nil] at h1
      omega)]
    simp only [strictMonthYearShape, plusMonthShape, hl]
    rfl
  · rw [isValidMonthYear_not7 (by
      rw [hl]
      rintro ⟨h1, -⟩
      simp only [List.length_cons, List.length_nil] at h1
      omega)]
    simp only [strictMonthYearShape, plusMonthShape, hl]
    rfl
  · rw [isValidMonthYear_not7 (by
      rw [hl]
      rintro ⟨h1, -⟩
      simp only [List.length_cons, List.length_nil] at h1
      omega)]
    simp only [strictMonthYearShape, plusMonthShape, hl]
    rfl
  · rw [isValidMonthYear_not7 (by
      rw [hl]
      rintro ⟨h1, -⟩
      simp only [List.length_cons, List.length_nil] at h1
      omega)]
    simp only [strictMonthYearShape, plusMonthShape, hl]
    rfl
  · rw [isValidMonthYear_not7 (by
      rw [hl]
      rintro ⟨h1, -⟩
      simp only [List.length_cons, List.length_nil] at h1
      omega)]
    simp only [strictMonthYearShape, plusMonthShape, hl]
    rfl
  · rcases rest with _ | ⟨h8, t⟩
    · by_cases hc : c = '-'
      · subst hc
        rw [isValidMonthYear_on7 hl]
        have hmc := monthCond a b
        have hyc := yearCond d e f g
        rcases hm2 : atoiChars [a, b] with _ | mv <;>
          rcases hy2 : atoiChars [d, e, f, g] with _ | yv <;>
          rw [hm2] at hmc <;> rw [hy2] at hyc <;>
          simp only [Option.elim] at hmc hyc <;>
          simp only [strictMonthYearShape, plusMonthShape, hl, beq_self_eq_true,
            Bool.true_and] <;>
          rw [← andOrRight, ← hmc, ← hyc]
        · rfl
        · rfl
        · simp
        · exact and4 _ _ _ _
      · rw [isValidMonthYear_not7 (by
          rw [hl]
          rintro ⟨-, h2⟩
          exact hc h2)]
        have hsep : (c == '-') = false := by
          simp [hc]
        simp only [strictMonthYearShape, plusMonthShape, hl, hsep]
        rfl
    · rw [isValidMonthYear_not7 (by
        rw [hl]
        rintro ⟨h1, -⟩
        simp only [List.length_cons, List.length_nil] at h1
        omega)]
      simp only [strictMonthYearShape, plusMonthShape, hl]
      rfl

/-- Splitting a hyphen-free list yields the list itself as sole part. -/
lemma splitH_no_hyphen {l : List Char} (h : ∀ c ∈ l, c ≠ '-') : splitH l = [l] := by
  induction l with
  | nil => rfl
  | cons c cs ih =>
    have hc : c ≠ '-' := h c (List.mem_cons_self c cs)
    have ih2 : splitH cs = [cs] := ih (fun x hx => h x (List.mem_cons_of_mem c hx))
    simp [splitH, hc, ih2]

/-- One unfolding step of the splitter at a hyphen. -/
lemma splitH_cons_hyphen (rest : List Char) :
    splitH ('-' :: rest) = [] :: splitH rest := rfl

/-- One unfolding step of the splitter at a non-hyphen character. -/
lemma splitH_cons_other {c : Char} (hc : c ≠ '-') (rest : List Char) :
    splitH (c :: rest) =
      (match splitH rest with
       | [] => [[c]]
       | p :: ps => (c :: p) :: ps) := by
  show (if c = '-' then [] :: splitH rest
        else match splitH rest with
             | [] => [[c]]
             | p :: ps => (c :: p) :: ps) = _
  rw [if_neg hc]

/-- Splitting a period-shaped list yields the month and year segments. -/
lemma splitH_period {m1 m2 y1 y2 y3 y4 : Char} (hm1 : m1 ≠ '-') (hm2 : m2 ≠ '-')
    (hy : ∀ c ∈ [y1, y2, y3, y4], c ≠ '-') :
    splitH [m1, m2, '-', y1, y2, y3, y4] = [[m1, m2], [y1, y2, y3, y4]] := by
  have h4 : splitH [y1, y2, y3, y4] = [[y1, y2, y3, y4]] := splitH_no_hyphen hy
  rw [splitH_cons_other hm1, splitH_cons_other hm2, splitH_cons_hyphen, h4]

/-- Any string accepted by the handler pattern consists of two digits, a
hyphen and four digits (the month digits are in particular digits). -/
lemma monthYearMatch_shape {s : String} (h : monthYearMatch s = true) :
    ∃ m1 m2 y1 y2 y3 y4, s.toList = [m1, m2, '-', y1, y2, y3, y4] ∧
      isDigitChar m1 = true ∧ isDigitChar m2 = true ∧ isDigitChar y1 = true ∧
      isDigitChar y2 = true ∧ isDigitChar y3 = true ∧ isDigitChar y4 = true := by
  have hd : s.data = s.toList := rfl
  rcases hl : s.toList with _ | ⟨a, _ | ⟨b, _ | ⟨c, _ | ⟨d, _ | ⟨e, _ | ⟨f, _ | ⟨g, rest⟩⟩⟩⟩⟩⟩⟩ <;>
    rw [hl] at hd
  · simp [monthYearMatch, hd] at h
  · simp [monthYearMatch, hd] at h
  · simp [monthYearMatch, hd] at h
  · simp [monthYearMatch, hd] at h
  · simp [monthYearMatch, hd] at h
  · simp [monthYearMatch, hd] at h
  · simp [monthYearMatch, hd] at h
  rcases rest with _ | ⟨h8, t⟩
  · simp only [monthYearMatch, hl, Bool.and_eq_true, Bool.or_eq_true, beq_iff_eq,
      decide_eq_true_eq] at h
    obtain ⟨⟨hmonth, hsep⟩, ⟨⟨hy1, hy2⟩, hy3⟩, hy4⟩ := h
    subst hsep
    refine ⟨a, b, d, e, f, g, rfl, ?_, ?_, hy1, hy2, hy3, hy4⟩
    · rcases hmonth with ⟨ha0, -⟩ | ⟨ha1, -⟩
      · subst ha0; decide
      · subst ha1; decide
    · rcases hmonth with ⟨-, hb1, hb2⟩ | ⟨-, hb1, hb2⟩ <;>
        exact isDigitChar_iff.mpr ⟨by omega, by omega⟩
  · simp [monthYearMatch, hd] at h

/-- The if-chain of the source comparator agrees with the lexicographic
year-month order. -/
lemma ifChain (sy ey sm em : Int) :
    (if sy < ey then true
     else if ey = sy ∧ sm ≤ em then true else false) =
    decide (sy < ey ∨ (sy = ey ∧ sm ≤ em)) := by
  by_cases h1 : sy < ey
  · simp [h1]
  · by_cases h2 : ey = sy ∧ sm ≤ em
    · rw [if_neg h1, if_pos h2]
      exact (decide_eq_true (Or.inr ⟨h2.1.symm, h2.2⟩)).symm
    · rw [if_neg h1, if_neg h2]
      have hX : ¬(sy < ey ∨ (sy = ey ∧ sm ≤ em)) := by
        rintro (hlt | ⟨he, hm⟩)
        · exact h1 hlt
        · exact h2 ⟨he.symm, hm⟩
      exact (decide_eq_false hX).symm

/-- On two pattern-valid periods the handler comparator returns exactly the
chronological year-then-month comparison. -/
lemma isEndDateAfterOrEqual_eq {a b : String}
    (ha : monthYearMatch a = true) (hb : monthYearMatch b = true) :
    isEndDateAfterOrEqual a b =
      some (decide (yearOf a < yearOf b ∨
        (yearOf a = yearOf b ∧ monthOf a ≤ monthOf b))) := by
  obtain ⟨am1, am2, ay1, ay2, ay3, ay4, hal, ham1, ham2, hay1, hay2, hay3, hay4⟩ :=
    monthYearMatch_shape ha
  obtain ⟨bm1, bm2, by1, by2, by3, by4, hbl, hbm1, hbm2, hby1, hby2, hby3, hby4⟩ :=
    monthYearMatch_shape hb
  have hya4 : ∀ c ∈ [ay1, ay2, ay3, ay4], c ≠ '-' := by
    intro c hc
    simp only [List.mem_cons, List.not_mem_nil, or_false] at hc
    rcases hc with rfl | rfl | rfl | rfl
    · exact digit_ne_hyphen hay1
    · exact digit_ne_hyphen hay2
    · exact digit_ne_hyphen hay3
    · exact digit_ne_hyphen hay4
  have hyb4 : ∀ c ∈ [by1, by2, by3, by4], c ≠ '-' := by
    intro c hc
    simp only [List.mem_cons, List.not_mem_nil, or_false] at hc
    rcases hc with rfl | rfl | rfl | rfl
    · exact digit_ne_hyphen hby1
    · exact digit_ne_hyphen hby2
    · exact digit_ne_hyphen hby3
    · exact digit_ne_hyphen hby4
  have hsa : splitH a.toList = [[am1, am2], [ay1, ay2, ay3, ay4]] := by
    rw [hal]
    exact splitH_period (digit_ne_hyphen ham1) (digit_ne_hyphen ham2) hya4
  have hsb : splitH b.toList = [[bm1, bm2], [by1, by2, by3, by4]] := by
    rw [hbl]
    exact splitH_period (digit_ne_hyphen hbm1) (digit_ne_hyphen hbm2) hyb4
  have hma : atoiChars [am1, am2] = some ((10 * digitVal am1 + digitVal am2 : Nat) : Int) :=
    atoiChars_digits_two ham1 ham2
  have hmb : atoiChars [bm1, bm2] = some ((10 * digitVal bm1 + digitVal bm2 : Nat) : Int) :=
    atoiChars_digits_two hbm1 hbm2
  have hya : atoiChars [ay1, ay2, ay3, ay4] = some ((yearVal4 ay1 ay2 ay3 ay4 : Nat) : Int) :=
    atoiChars_digits_four hay1 hay2 hay3 hay4
  have hyb : atoiChars [by1, by2, by3, by4] = some ((yearVal4 by1 by2 by3 by4 : Nat) : Int) :=
    atoiChars_digits_four hby1 hby2 hby3 hby4
  have hald : a.data = [am1, am2, '-', ay1, ay2, ay3, ay4] := hal
  have hbld : b.data = [bm1, bm2, '-', by1, by2, by3, by4] := hbl
  have hYa : yearOf a = ((yearVal4 ay1 ay2 ay3 ay4 : Nat) : Int) := by
    simp [yearOf, hal, hald, hya]
  have hYb : yearOf b = ((yearVal4 by1 by2 by3 by4 : Nat) : Int) := by
    simp [yearOf, hbl, hbld, hyb]
  have hMa : monthOf a = ((10 * digitVal am1 + digitVal am2 : Nat) : Int) := by
    simp [monthOf, hal, hald, hma]
  have hMb : monthOf b = ((10 * digitVal bm1 + digitVal bm2 : Nat) : Int) := by
    simp [monthOf, hbl, hbld, hmb]
  simp only [isEndDateAfterOrEqual, hsa, hsb, List.get?, hma, hmb, hya, hyb,
    hYa, hYb, hMa, hMb]
  rw [ifChain]

/-- Sample user identifier in canonical UUID form, used by the witnesses. -/
def sampleUserID : String := "123e4567-e89b-12d3-a456-426614174000"

/-- A successful `ValidateSubscriptionInput` implies the start date matched
the period pattern. -/
lemma validate_ok_start {n : String} {p : Int} {u s : String}
    (h : ValidateSubscriptionInput n p u s = none) : monthYearMatch s = true := by
  simp only [ValidateSubscriptionInput] at h
  split at h
  · exact absurd h (by simp)
  · split at h
    · exact absurd h (by simp)
    · split at h
      · exact absurd h (by simp)
      · split at h
        · exact absurd h (by simp)
        · rename_i hcond
          cases hmv : monthYearMatch s
          · exact absurd hmv hcond
          · rfl

/-- A successful `ValidatePeriodDate` implies the date matched the period
pattern. -/
lemma validatePeriod_ok {e : String} (h : ValidatePeriodDate e = none) :
    monthYearMatch e = true := by
  simp only [ValidatePeriodDate] at h
  split at h
  · exact absurd h (by simp)
  · rename_i hcond
    cases hmv : monthYearMatch e
    · exact absurd hmv hcond
    · rfl

/-- C8: the handler-layer period check (the regex) and the repository-layer
period check (the numeric range parse) are not extensionally equal: the
string "07-1850" matches the regex but fails the year range check. -/
theorem period_checks_not_equivalent :
    ∃ s : String, monthYearMatch s ≠ isValidMonthYear s :=
  ⟨"07-1850", by decide⟩

/-- C2 counterexample: "+9-2025" is accepted by `isValidMonthYear` although
it does not have the two-digit-month `MM-YYYY` shape the claim demands,
because `strconv.Atoi` accepts a leading plus sign. -/
theorem isValidMonthYear_plus_counterexample :
    isValidMonthYear "+9-2025" = true ∧ strictMonthYearShape "+9-2025" = false := by
  decide

/-- C2 amended: for every string, `isValidMonthYear` returns true exactly
when the string has the strict `MM-YYYY` shape with month in [1,12] and
year in [1900,2100], or the additional `+M-YYYY` shape with a single
nonzero month digit, admitted by the sign handling of `strconv.Atoi`;
it never fails, it classifies. -/
theorem isValidMonthYear_characterization (s : String) :
    isValidMonthYear s = (strictMonthYearShape s || plusMonthShape s) :=
  isValidMonthYear_eq_shapes s

/-- C3: on period strings matching the pattern, the comparator returns
exactly the lexicographic order on (year, month) pairs: `b` at or after `a`
iff the year of `a` is less than the year of `b`, or the years are equal
and the month of `a` is at most the month of `b`. -/
theorem isEndDateAfterOrEqual_chronological (a b : String)
    (ha : monthYearMatch a = true) (hb : monthYearMatch b = true) :
    isEndDateAfterOrEqual a b =
      some (decide (yearOf a < yearOf b ∨
        (yearOf a = yearOf b ∧ monthOf a ≤ monthOf b))) :=
  isEndDateAfterOrEqual_eq ha hb

/-- C3 witness: the comparator holds at ("11-2024", "01-2025") although the
raw string order puts "01-2025" first. -/
theorem isEndDateAfterOrEqual_chronological_witness :
    isEndDateAfterOrEqual "11-2024" "01-2025" = some true ∧
    strLe "01-2025" "11-2024" = true := by
  constructor
  · rw [isEndDateAfterOrEqual_chronological "11-2024" "01-2025" (by decide) (by decide)]
    decide
  · decide

/-- C10: once the handler validators have accepted both period strings the
comparator is total (no out-of-range split access and no discarded parse
error), while an argument without a hyphen drives it out of bounds. -/
theorem endDateComparator_total_after_validation (n : String) (p : Int)
    (u s e : String) (hs : ValidateSubscriptionInput n p u s = none)
    (he : ValidatePeriodDate e = none) :
    (isEndDateAfterOrEqual s e).isSome = true ∧
    isEndDateAfterOrEqual "012025" "01-2025" = none := by
  constructor
  · rw [isEndDateAfterOrEqual_eq (validate_ok_start hs) (validatePeriod_ok he)]
    rfl
  · decide

/-- C10 witness: the validated inputs "07-2025" and "08-2025" make the
comparator total. -/
theorem endDateComparator_total_after_validation_witness :
    (isEndDateAfterOrEqual "07-2025" "08-2025").isSome = true ∧
    isEndDateAfterOrEqual "012025" "01-2025" = none :=
  endDateComparator_total_after_validation "Netflix" 1 sampleUserID
    "07-2025" "08-2025" (by decide) (by decide)

/-- C4: the input validator checks its four rules in order with the first
failure winning, and succeeds exactly when all four rules pass. -/
theorem validateSubscriptionInput_spec (n : String) (p : Int) (u s : String) :
    (ValidateSubscriptionInput n p u s = none ↔
      (n ≠ "" ∧ 0 < p ∧ uuidParseOk u = true ∧ monthYearMatch s = true)) ∧
    (n = "" → ValidateSubscriptionInput n p u s = some "service_name is required") ∧
    (n ≠ "" → p ≤ 0 →
      ValidateSubscriptionInput n p u s = some "price must be a positive integer") ∧
    (n ≠ "" → 0 < p → uuidParseOk u = false →
      ValidateSubscriptionInput n p u s = some "user_id must be a valid UUID") ∧
    (n ≠ "" → 0 < p → uuidParseOk u = true → monthYearMatch s = false →
      ValidateSubscriptionInput n p u s =
        some "start_date must be in MM-YYYY format (e.g., 07-2025)") := by
  by_cases hn : n = "" <;> by_cases hp : p ≤ 0 <;>
    cases hu : uuidParseOk u <;> cases hms : monthYearMatch s <;>
    simp [ValidateSubscriptionInput, hn, hp, hu, hms, not_le]
  omega

/-- C4 witness: price 0 fails with the price message while price 1, with the
other fields valid, passes. -/
theorem validateSubscriptionInput_spec_witness :
    ValidateSubscriptionInput "Netflix" 0 sampleUserID "07-2025" =
      some "price must be a positive integer" ∧
    ValidateSubscriptionInput "Netflix" 1 sampleUserID "07-2025" = none := by
  constructor
  · exact (validateSubscriptionInput_spec "Netflix" 0 sampleUserID "07-2025").2.2.1
      (by decide) (by decide)
  · exact (validateSubscriptionInput_spec "Netflix" 1 sampleUserID "07-2025").1.mpr
      ⟨by decide, by decide, by decide, by decide⟩

/-- Stored subscription with a null end date, used by the witnesses. -/
def subOpen : Subscription :=
  ⟨"11111111-1111-1111-1111-111111111111", "Netflix", 100, sampleUserID, "06-2024", none⟩

/-- Stored subscription that ended in December 2024. -/
def subEnded : Subscription :=
  ⟨"22222222-2222-2222-2222-222222222222", "Netflix", 50, sampleUserID, "06-2024",
    some "12-2024"⟩

/-- Stored subscription starting January 2024. -/
def subJan24 : Subscription :=
  ⟨"33333333-3333-3333-3333-333333333333", "Music", 1, sampleUserID, "01-2024", none⟩

/-- Stored subscription starting December 2023. -/
def subDec23 : Subscription :=
  ⟨"44444444-4444-4444-4444-444444444444", "Video", 2, sampleUserID, "12-2023", none⟩

/-- Update payload used by the witnesses. -/
def subNew : Subscription :=
  ⟨"99999999-9999-9999-9999-999999999999", "Cinema", 7, sampleUserID, "02-2025",
    some "03-2025"⟩

/-- Composing two filters filters by the conjunction of the predicates. -/
lemma filter_filter_comm (p q : Subscription → Bool) (l : List Subscription) :
    (l.filter p).filter q = l.filter (fun a => p a && q a) := by
  induction l with
  | nil => rfl
  | cons x xs ih =>
    by_cases hp : p x = true
    · by_cases hq : q x = true
      · simp [List.filter_cons, hp, hq, ih]
      · simp [List.filter_cons, hp, hq, ih]
    · simp [List.filter_cons, hp, ih]

/-- Folding addition of prices equals the accumulator plus the sum of the
mapped prices. -/
lemma foldl_price (l : List Subscription) (acc : Int) :
    l.foldl (fun a sub => a + sub.price) acc = acc + (l.map Subscription.price).sum := by
  induction l generalizing acc with
  | nil => simp
  | cons x xs ih =>
    simp only [List.foldl_cons, List.map_cons, List.sum_cons, ih]
    ring

/-- C1 (amended): for a valid user id and valid periods, `TotalCost` returns
the sum of `price` over exactly the stored subscriptions of that user whose
`start_date` is at or before `to` and whose `end_date` is null or at or
after `from` under the lexicographic `TEXT` comparison the SQL executes,
restricted to the exact service name when `serviceName` is non-empty, and
it returns 0, not an error, when no subscription matches. -/
theorem totalCost_amended (u sn f t : String) (db : List Subscription)
    (hu : uuidParseOk u = true) (hf : isValidMonthYear f = true)
    (ht : isValidMonthYear t = true) :
    TotalCost u sn f t db =
      Except.ok (((db.filter (fun sub =>
        sub.user_id == u && strLe sub.start_date t &&
        (match sub.end_date with
         | none => true
         | some e => strLe f e) &&
        (sn == "" || sub.service_name == sn))).map Subscription.price).sum) ∧
    ((db.filter (fun sub =>
        sub.user_id == u && strLe sub.start_date t &&
        (match sub.end_date with
         | none => true
         | some e => strLe f e) &&
        (sn == "" || sub.service_name == sn))) = [] →
      TotalCost u sn f t db = Except.ok 0) := by
  have hmain : TotalCost u sn f t db =
      Except.ok (((db.filter (fun sub =>
        sub.user_id == u && strLe sub.start_date t &&
        (match sub.end_date with
         | none => true
         | some e => strLe f e) &&
        (sn == "" || sub.service_name == sn))).map Subscription.price).sum) := by
    simp only [TotalCost]
    rw [if_neg (by simp [hu]), if_neg (by simp [hf, ht])]
    cases hsn : (sn == "")
    · rw [if_neg (by simp [hsn]), filter_filter_comm, foldl_price]
      simp only [zero_add, hsn, Bool.false_or, totalCostBaseMatch]
    · rw [if_pos rfl, foldl_price]
      simp only [zero_add, hsn, Bool.true_or, Bool.and_true]
      rfl
  refine ⟨hmain, fun hempty => ?_⟩
  rw [hmain, hempty]
  rfl

/-- C1 (amended) witness: with both the open-ended subscription and the one
ended December 2024 stored, the window January to December 2025 totals 150:
both rows are counted under the `TEXT` comparison. -/
theorem totalCost_amended_witness :
    TotalCost sampleUserID "" "01-2025" "12-2025" [subOpen, subEnded] =
      Except.ok 150 := by
  have h := (totalCost_amended sampleUserID "" "01-2025" "12-2025" [subOpen, subEnded]
    (by decide) (by decide) (by decide)).1
  rw [h]
  rfl

/-- C1 counterexample: on the window from "01-2025" to "12-2025", the aggregation counts a
subscription whose end date "12-2024" lies chronologically strictly before
the window start, because the stored periods are `TEXT` and the SQL
comparison "12-2024" >= "01-2025" is lexicographic; the chronological
reading of the claim would yield a total of 0, the code returns 50. -/
theorem totalCost_text_comparison_divergence :
    TotalCost sampleUserID "" "01-2025" "12-2025" [subEnded] = Except.ok 50 ∧
    (yearOf "12-2024" < yearOf "01-2025" ∨
      (yearOf "12-2024" = yearOf "01-2025" ∧ monthOf "12-2024" < monthOf "01-2025")) ∧
    (Except.ok (50 : Int) : Except String Int) ≠ Except.ok (0 : Int) := by
  refine ⟨rfl, Or.inl (by decide), ?_⟩
  intro h
  exact absurd (Except.ok.inj h) (by decide)

/-- C5: `ListByUserID` orders by `start_date` descending as `TEXT`, so the
row dated "12-2023" is returned before the row dated "01-2024" although the
latter is chronologically later; a chronologically descending order would
list "01-2024" first. -/
theorem listByUserID_text_order_divergence :
    ListByUserID sampleUserID [subJan24, subDec23] = Except.ok [subDec23, subJan24] ∧
    (yearOf subDec23.start_date < yearOf subJan24.start_date ∨
      (yearOf subDec23.start_date = yearOf subJan24.start_date ∧
       monthOf subDec23.start_date < monthOf subJan24.start_date)) :=
  ⟨rfl, Or.inl (by decide)⟩

/-- C6: updating an id absent from storage, with otherwise valid input,
reports "subscription not found" and leaves the stored rows unchanged. -/
theorem update_nonexistent_id (id : String) (sub : Subscription)
    (db : List Subscription) (hid : uuidParseOk id = true)
    (huser : uuidParseOk sub.user_id = true)
    (hstart : isValidMonthYear sub.start_date = true)
    (habs : ∀ row ∈ db, row.id ≠ id) :
    Update id sub db = (db, some "subscription not found") := by
  have hcount : db.countP (fun row => row.id == id) = 0 := by
    rw [List.countP_eq_zero]
    intro row hrow
    simp only [beq_iff_eq]
    exact habs row hrow
  simp [Update, hid, huser, hstart, hcount]

/-- C6 witness: updating a fresh id on the empty store fails as not found
and leaves the store empty. -/
theorem update_nonexistent_id_witness :
    Update "55555555-5555-5555-5555-555555555555" subNew [] =
      ([], some "subscription not found") :=
  update_nonexistent_id _ _ _ (by decide) (by decide) (by decide)
    (by intro row hrow; cases hrow)

/-- C7: after a successful delete, deleting the same id again reports
"subscription not found" and leaves the state unchanged, so two deletes
end in the same state as one. -/
theorem delete_idempotent (id : String) (db : List Subscription)
    (hid : uuidParseOk id = true) (hfirst : (Delete id db).2 = none) :
    Delete id ((Delete id db).1) = ((Delete id db).1, some "subscription not found") ∧
    (Delete id ((Delete id db).1)).1 = (Delete id db).1 := by
  have h1 : (Delete id db).1 = db.filter (fun row => !(row.id == id)) := by
    simp only [Delete, hid] at hfirst ⊢
    by_cases hc : db.countP (fun row => row.id == id) = 0
    · simp [hc] at hfirst
    · simp [hc]
  have hcount :
      (db.filter (fun row => !(row.id == id))).countP (fun row => row.id == id) = 0 := by
    rw [List.countP_eq_zero]
    intro row hrow
    have hmem := (List.mem_filter.mp hrow).2
    simp only [Bool.not_eq_eq_eq_not, Bool.not_true] at hmem
    simp [hmem]
  have hmain :
      Delete id ((Delete id db).1) = ((Delete id db).1, some "subscription not found") := by
    rw [h1]
    simp [Delete, hid, hcount]
  exact ⟨hmain, by rw [hmain]⟩

/-- C7 witness: deleting the only row succeeds, and a second delete of the
same id reports not found over the emptied store. -/
theorem delete_idempotent_witness :
    Delete subOpen.id ((Delete subOpen.id [subOpen]).1) =
      ((Delete subOpen.id [subOpen]).1, some "subscription not found") :=
  (delete_idempotent subOpen.id [subOpen] (by decide) (by decide)).1

/-- Pointwise effect of the `UPDATE ... SET` clause on one row. -/
lemma applyUpdate_spec (sub : Subscription) (id : String) (row : Subscription) :
    (applyUpdate sub id row).id = row.id ∧
    (row.id ≠ id → applyUpdate sub id row = row) ∧
    (row.id = id → (applyUpdate sub id row).service_name = sub.service_name ∧
      (applyUpdate sub id row).price = sub.price ∧
      (applyUpdate sub id row).user_id = sub.user_id ∧
      (applyUpdate sub id row).start_date = sub.start_date ∧
      (applyUpdate sub id row).end_date = sub.end_date) := by
  by_cases hr : row.id = id
  · simp [applyUpdate, hr]
  · simp [applyUpdate, hr]

/-- C9: a successful update keeps every row id (the `SET` clause never
touches `id`), replaces exactly the five mutable fields on the row matching
the target id, and leaves every other row entirely unchanged. -/
theorem update_frame (id : String) (sub : Subscription) (db : List Subscription)
    (hid : uuidParseOk id = true) (huser : uuidParseOk sub.user_id = true)
    (hstart : isValidMonthYear sub.start_date = true)
    (hsucc : (Update id sub db).2 = none) :
    List.Forall₂ (fun row row2 =>
      row2.id = row.id ∧
      (row.id ≠ id → row2 = row) ∧
      (row.id = id → row2.service_name = sub.service_name ∧ row2.price = sub.price ∧
        row2.user_id = sub.user_id ∧ row2.start_date = sub.start_date ∧
        row2.end_date = sub.end_date)) db (Update id sub db).1 := by
  have h1 : (Update id sub db).1 = db.map (applyUpdate sub id) := by
    simp only [Update, hid, huser, hstart] at hsucc ⊢
    by_cases hc : db.countP (fun row => row.id == id) = 0
    · simp [hc] at hsucc
    · simp [hc]
  rw [h1]
  clear h1 hsucc
  induction db with
  | nil => exact List.Forall₂.nil
  | cons row rows ih =>
    exact List.Forall₂.cons (applyUpdate_spec sub id row) ih

/-- C9 witness: a successful update of the only stored row preserves its id
and installs the payload fields. -/
theorem update_frame_witness :
    List.Forall₂ (fun row row2 =>
      row2.id = row.id ∧
      (row.id ≠ subOpen.id → row2 = row) ∧
      (row.id = subOpen.id → row2.service_name = subNew.service_name ∧
        row2.price = subNew.price ∧ row2.user_id = subNew.user_id ∧
        row2.start_date = subNew.start_date ∧ row2.end_date = subNew.end_date))
      [subOpen] (Update subOpen.id subNew [subOpen]).1 :=
  update_frame subOpen.id subNew [subOpen] (by decide) (by decide) (by decide) (by decide)

end SubAgg
